import Mathlib

/-!
# Exchange-rate server and client: a shallow embedding

The two Go programs `server/server.go` and `client/client.go` are embedded as
pure functions.  Everything the programs obtain from outside (the outcome of
an HTTP call, whether a context deadline has elapsed, the outcome of a store
insert, the identifier generated by `uuid.New`, the outcome of a file
operation) is an explicit argument.  Go `error` values are represented by
their text (`err.Error()`), Go strings by `String`.

The external packages the programs call (`shopspring/decimal`,
`encoding/json`) are modelled by the definitions of the namespaces `Decimal`
and `Json`.
-/

/-! ## `github.com/shopspring/decimal` -/

/-- A `decimal.Decimal`: the number `value * 10 ^ exp`. -/
structure Decimal where
  value : Int
  exp : Int
deriving DecidableEq, Repr

deriving instance DecidableEq for Except

namespace Decimal

/-- The zero value `Decimal{}` of Go. -/
def zero : Decimal := ⟨0, 0⟩

def isDigit (c : Char) : Bool := decide (48 ≤ c.toNat) && decide (c.toNat ≤ 57)

def digitVal (c : Char) : Nat := c.toNat - 48

/-- Reads a run of decimal digits, most significant first, onto `acc`. -/
def parseDigits : List Char → Nat → Option Nat
  | [], acc => some acc
  | c :: cs, acc => if isDigit c then parseDigits cs (acc * 10 + digitVal c) else none

/-- One or more decimal digits. -/
def parseUnsigned (cs : List Char) : Option Nat :=
  match cs with
  | [] => none
  | _ :: _ => parseDigits cs 0

/-- What `strconv.ParseInt(s, 10, _)` and `big.Int.SetString(s, 10)` accept:
an optional sign followed by one or more decimal digits. -/
def parseSigned (cs : List Char) : Option Int :=
  match cs with
  | '+' :: r => (parseUnsigned r).map Int.ofNat
  | '-' :: r => (parseUnsigned r).map (fun n => - Int.ofNat n)
  | _ => (parseUnsigned cs).map Int.ofNat

/-- Splits at the first `e` or `E` (`strings.IndexAny(value, "Ee")`): the text
before it and, when there is one, the text after it. -/
def splitAtExp : List Char → List Char × Option (List Char)
  | [] => ([], none)
  | c :: cs =>
    if c = 'e' ∨ c = 'E' then ([], some cs)
    else ((c :: (splitAtExp cs).1), (splitAtExp cs).2)

/-- Splits at the first `.`. -/
def splitAtPoint : List Char → List Char × Option (List Char)
  | [] => ([], none)
  | c :: cs =>
    if c = '.' then ([], some cs)
    else ((c :: (splitAtPoint cs).1), (splitAtPoint cs).2)

def minInt32 : Int := -2147483648
def maxInt32 : Int := 2147483647

def errConvert (value : String) : String :=
  "can\x27t convert " ++ value ++ " to decimal"

/-- Model of `decimal.NewFromString`. -/
def NewFromString (value : String) : Except String Decimal :=
  let originalInput := value
  let sp := splitAtExp value.toList
  -- scientific notation: the exponent is read by `strconv.ParseInt(_, 10, 32)`
  let expPart : Except String Int :=
    match sp.2 with
    | none => .ok 0
    | some etxt =>
      match parseSigned etxt with
      | none => .error (errConvert originalInput ++ ": exponent is not numeric")
      | some e =>
        if e < minInt32 ∨ maxInt32 < e then
          .error (errConvert originalInput ++ ": fractional part too long")
        else .ok e
  match expPart with
  | .error e => .error e
  | .ok exp0 =>
    let value := sp.1
    let pp := splitAtPoint value
    match pp.2 with
    | none =>
      match parseSigned value with
      | none => .error (errConvert (String.mk value))
      | some v =>
        if exp0 < minInt32 ∨ maxInt32 < exp0 then
          .error (errConvert originalInput ++ ": fractional part too long")
        else .ok ⟨v, exp0⟩
    | some frac =>
      if '.' ∈ frac then .error (errConvert (String.mk value) ++ ": too many .s")
      else
        let intString := pp.1 ++ frac
        let exp := exp0 - (frac.length : Int)
        match parseSigned intString with
        | none => .error (errConvert (String.mk value))
        | some v =>
          if exp < minInt32 ∨ maxInt32 < exp then
            .error (errConvert originalInput ++ ": fractional part too long")
          else .ok ⟨v, exp⟩

end Decimal

namespace Decimal

/-- The character of a decimal digit. -/
def digitChar (k : Nat) : Char := Char.ofNat (48 + k)

/-- The decimal digits of a natural number, most significant first
(`big.Int.String` of a non-negative value); `fuel` bounds the number of digits. -/
def natStringAux : Nat → Nat → List Char → List Char
  | 0, _, acc => acc
  | fuel + 1, n, acc =>
    if n < 10 then digitChar n :: acc
    else natStringAux fuel (n / 10) (digitChar (n % 10) :: acc)

def natString (n : Nat) : List Char := natStringAux (n + 1) n []

/-- Drops the trailing `0` characters of the fractional part. -/
def trimZeros (cs : List Char) : List Char :=
  (cs.reverse.dropWhile (fun c => c == '0')).reverse

/-- Model of `Decimal.String`, that is `d.string(true)`. -/
def toStr (d : Decimal) : String :=
  if 0 ≤ d.exp then
    -- `d.rescale(0).value.String()`
    let v := d.value * 10 ^ d.exp.toNat
    String.mk ((if v < 0 then ['-'] else []) ++ natString v.natAbs)
  else
    let str := natString d.value.natAbs
    let k := (-d.exp).toNat
    let intPart := if k < str.length then str.take (str.length - k) else ['0']
    let fractionalPart :=
      if k < str.length then str.drop (str.length - k)
      else List.replicate (k - str.length) '0' ++ str
    let fractionalPart := trimZeros fractionalPart
    let number := if fractionalPart.length > 0 then intPart ++ '.' :: fractionalPart else intPart
    String.mk (if d.value < 0 then '-' :: number else number)

end Decimal

/-! ## `encoding/json` -/

namespace Json

/-- A JSON value as the scanner of `encoding/json` delivers it.  Every value
keeps the text the decoder may hand on to an `UnmarshalJSON` method: a string
literal its text between the quotes (`raw`) beside its unquoted content
(`val`), a number its literal, an array and an object their whole text. -/
inductive Value where
  | null
  | bool (b : Bool)
  | number (lit : String)
  | string (raw : String) (val : String)
  | array (raw : String)
  | object (raw : String) (members : List (String × Value))

/-- The bytes read from a body, seen through the syntax check of
`json.Unmarshal`: either rejected with a syntax error, or one JSON value. -/
inductive Data where
  | invalid (detail : String)
  | doc (v : Value)

/-- What `io.ReadAll` makes of a body: a read error or the data. -/
abbrev Reader := Except String Data

/-- The text of a value, as passed to `UnmarshalJSON`. -/
def Value.text : Value → String
  | .null => "null"
  | .bool true => "true"
  | .bool false => "false"
  | .number lit => lit
  | .string raw _ => "\"" ++ raw ++ "\""
  | .array raw => raw
  | .object raw _ => raw

/-- The name of a value in an `UnmarshalTypeError`. -/
def Value.kind : Value → String
  | .null => "null"
  | .bool _ => "bool"
  | .number _ => "number"
  | .string _ _ => "string"
  | .array _ => "array"
  | .object _ _ => "object"

/-- Case folding of one character of an object key, as far as it can reach an
ASCII letter: upper case, the Kelvin sign and the long s. -/
def foldChar (c : Char) : Char :=
  if 65 ≤ c.toNat ∧ c.toNat ≤ 90 then Char.ofNat (c.toNat + 32)
  else if c.toNat = 0x212A then 'k'
  else if c.toNat = 0x17F then 's'
  else c

/-- Whether an object key selects the struct field with JSON name `tag`
(exact or case-insensitive match). -/
def equalFold (key tag : String) : Bool :=
  key.toList.map foldChar == tag.toList.map foldChar

def typeErrorField (v : Value) (path typ : String) : String :=
  "json: cannot unmarshal " ++ v.kind ++ " into Go struct field " ++ path ++ " of type " ++ typ

def typeErrorValue (v : Value) (typ : String) : String :=
  "json: cannot unmarshal " ++ v.kind ++ " into Go value of type " ++ typ

/-- The decoder keeps the first error it meets (`d.saveError`). -/
def saveError (saved : Option String) (e : String) : Option String :=
  match saved with
  | some s => some s
  | none => some e

end Json

/-! ## `server/server.go` -/

namespace Server

/-- The string fields of the `USDBRL` member of `ExchangeRateAwesomeapi`. -/
inductive Field where
  | code | codein | name | high | low | varBid | pctChange | bid | ask | timestamp | createDate
deriving DecidableEq, Repr

/-- The JSON name of a field (its `json:"..."` tag). -/
def Field.tag : Field → String
  | .code => "code"
  | .codein => "codein"
  | .name => "name"
  | .high => "high"
  | .low => "low"
  | .varBid => "varBid"
  | .pctChange => "pctChange"
  | .bid => "bid"
  | .ask => "ask"
  | .timestamp => "timestamp"
  | .createDate => "create_date"

def Field.all : List Field :=
  [.code, .codein, .name, .high, .low, .varBid, .pctChange, .bid, .ask, .timestamp, .createDate]

/-- The anonymous struct type of the field `USDBRL`. -/
structure USDBRL where
  Code : String := ""
  Codein : String := ""
  Name : String := ""
  High : String := ""
  Low : String := ""
  VarBid : String := ""
  PctChange : String := ""
  Bid : String := ""
  Ask : String := ""
  Timestamp : String := ""
  CreateDate : String := ""
deriving DecidableEq, Repr

def USDBRL.set (u : USDBRL) (f : Field) (s : String) : USDBRL :=
  match f with
  | .code => { u with Code := s }
  | .codein => { u with Codein := s }
  | .name => { u with Name := s }
  | .high => { u with High := s }
  | .low => { u with Low := s }
  | .varBid => { u with VarBid := s }
  | .pctChange => { u with PctChange := s }
  | .bid => { u with Bid := s }
  | .ask => { u with Ask := s }
  | .timestamp => { u with Timestamp := s }
  | .createDate => { u with CreateDate := s }

structure ExchangeRateAwesomeapi where
  USDBRL : USDBRL := {}
deriving DecidableEq, Repr

/-- The name Go prints for the anonymous struct type of the field `USDBRL`. -/
def usdbrlTypeName : String :=
  "struct \x7b " ++
  "Code string \"json:\\\"code\\\"\"; " ++
  "Codein string \"json:\\\"codein\\\"\"; " ++
  "Name string \"json:\\\"name\\\"\"; " ++
  "High string \"json:\\\"high\\\"\"; " ++
  "Low string \"json:\\\"low\\\"\"; " ++
  "VarBid string \"json:\\\"varBid\\\"\"; " ++
  "PctChange string \"json:\\\"pctChange\\\"\"; " ++
  "Bid string \"json:\\\"bid\\\"\"; " ++
  "Ask string \"json:\\\"ask\\\"\"; " ++
  "Timestamp string \"json:\\\"timestamp\\\"\"; " ++
  "CreateDate string \"json:\\\"create_date\\\"\" \x7d"

/-- The field an object key of the `USDBRL` object selects, if any. -/
def findField (key : String) : Option Field :=
  Field.all.find? (fun f => Json.equalFold key f.tag)

/-- Decoding of the members of the `USDBRL` object into the struct, in order:
a string sets its field, `null` leaves it, any other value is a type error;
keys that select no field are skipped. -/
def decodeUSDBRL :
    List (String × Json.Value) → USDBRL × Option String → USDBRL × Option String
  | [], st => st
  | (k, v) :: rest, (u, saved) =>
    match findField k with
    | none => decodeUSDBRL rest (u, saved)
    | some f =>
      match v with
      | .string _ val => decodeUSDBRL rest (u.set f val, saved)
      | .null => decodeUSDBRL rest (u, saved)
      | other =>
        decodeUSDBRL rest (u, Json.saveError saved
          (Json.typeErrorField other ("ExchangeRateAwesomeapi.USDBRL." ++ f.tag) "string"))

/-- Decoding of the members of the top-level object. -/
def decodeMembers :
    List (String × Json.Value) → ExchangeRateAwesomeapi × Option String →
      ExchangeRateAwesomeapi × Option String
  | [], st => st
  | (k, v) :: rest, (x, saved) =>
    if Json.equalFold k "USDBRL" then
      match v with
      | .object _ ms =>
        decodeMembers rest (⟨(decodeUSDBRL ms (x.USDBRL, saved)).1⟩,
          (decodeUSDBRL ms (x.USDBRL, saved)).2)
      | .null => decodeMembers rest (x, saved)
      | other =>
        decodeMembers rest (x, Json.saveError saved
          (Json.typeErrorField other "ExchangeRateAwesomeapi.USDBRL" usdbrlTypeName))
    else decodeMembers rest (x, saved)

/-- Model of `json.Unmarshal(data, &exchangeRate)` for
`var exchangeRate ExchangeRateAwesomeapi`. -/
def jsonUnmarshal (data : Json.Data) : Except String ExchangeRateAwesomeapi :=
  match data with
  | .invalid detail => .error detail
  | .doc v =>
    match v with
    | .object _ ms =>
      match (decodeMembers ms ({}, none)).2 with
      | some e => .error e
      | none => .ok (decodeMembers ms ({}, none)).1
    | .null => .ok {}
    | other => .error (Json.typeErrorValue other "main.ExchangeRateAwesomeapi")

/-- A `uuid.UUID`. -/
abbrev UUID := Nat

/-- The record `ExchangeRate` (the fields of the embedded `gorm.Model` are
assigned by the store and play no part in the program). -/
structure ExchangeRate where
  UUID : UUID
  Bid : Decimal
deriving DecidableEq, Repr

structure ExchangeRateResponse where
  Bid : Decimal
deriving DecidableEq, Repr

def ExchangeRate.ToExchangeRateResponse (exchangeRate : ExchangeRate) : ExchangeRateResponse :=
  { Bid := exchangeRate.Bid }

/-- `ToExchangeRate`; `uuid` is the value `uuid.New()` returns. -/
def ExchangeRateAwesomeapi.ToExchangeRate (exchangeRate : ExchangeRateAwesomeapi) (uuid : UUID) :
    Except String ExchangeRate :=
  match Decimal.NewFromString exchangeRate.USDBRL.Bid with
  | .error err => .error err
  | .ok bid => .ok { UUID := uuid, Bid := bid }

def readExchangeRate (body : Json.Reader) (uuid : UUID) : Except String ExchangeRate :=
  match body with
  | .error err => .error err
  | .ok data =>
    match jsonUnmarshal data with
    | .error err => .error err
    | .ok exchangeRate => exchangeRate.ToExchangeRate uuid

/-- An `http.Response`, as far as the program looks at it. -/
structure Response where
  StatusCode : Nat
  Body : Json.Reader

/-- `findExchangeRateInAwesomeapi`: `call` is what
`findExchangeRateInAwesomeapiWithContext` returned (a response or an error),
`ctxErr` whether `ctx.Err() != nil` when it is tested, that is whether the
200ms deadline has elapsed. -/
def findExchangeRateInAwesomeapi (call : Except String Response) (ctxErr : Bool) :
    Except String Response :=
  if ctxErr then .error "timeout ao buscar cotacao"
  else
    match call with
    | .error _ => .error "erro ao buscar cotacao"
    | .ok res => .ok res

/-- The store: the rows of the table, and the insert statements issued so far. -/
structure Store where
  rows : List ExchangeRate
  inserts : List ExchangeRate
deriving DecidableEq, Repr

/-- What the store made of one `Create`. -/
inductive CreateResult where
  | inserted
  | failed (err : String)
deriving DecidableEq, Repr

/-- `db.WithContext(ctx).Create(&exchangeRate)` as a step on the store. -/
def Store.Create (db : Store) (exchangeRate : ExchangeRate) (outcome : CreateResult) : Store :=
  match outcome with
  | .inserted => { rows := db.rows ++ [exchangeRate], inserts := db.inserts ++ [exchangeRate] }
  | .failed _ => { rows := db.rows, inserts := db.inserts ++ [exchangeRate] }

/-- `saveExchangeRate`: `dbOpen` is the error of `dbOpen()` if any, `outcome`
what the store makes of the insert, `ctxErr` whether the 10ms deadline has
elapsed when `ctx.Err()` is tested.  The value `Create` returns is dropped by
the program; the `err` tested after the deadline is the one of `dbOpen`. -/
def saveExchangeRate (dbOpen : Option String) (outcome : CreateResult) (ctxErr : Bool)
    (db : Store) (exchangeRate : ExchangeRate) : Option String × Store :=
  let err := dbOpen
  match err with
  | some e => (some e, db)
  | none =>
    let db := db.Create exchangeRate outcome
    if ctxErr then (some "timeout ao salvar cotacao", db)
    else
      match err with
      | some _ => (some "erro ao salvar cotacao", db)
      | none => (none, db)

/-- Everything one request obtains from outside. -/
structure Env where
  call : Except String Response
  fetchCtxErr : Bool
  uuid : UUID
  dbOpen : Option String
  create : CreateResult
  saveCtxErr : Bool

def findExchangeRate (env : Env) (db : Store) : Except String ExchangeRate × Store :=
  match findExchangeRateInAwesomeapi env.call env.fetchCtxErr with
  | .error err => (.error err, db)
  | .ok res =>
    match readExchangeRate res.Body env.uuid with
    | .error err => (.error err, db)
    | .ok exchangeRate =>
      match saveExchangeRate env.dbOpen env.create env.saveCtxErr db exchangeRate with
      | (some err, db) => (.error err, db)
      | (none, db) => (.ok exchangeRate, db)

/-- What the handler wrote to its `http.ResponseWriter`. -/
structure ResponseWriter where
  status : Nat
  header : List (String × String)
  body : String
deriving DecidableEq, Repr

/-- `json.NewEncoder(w).Encode(response)`: the bid is marshalled by
`Decimal.MarshalJSON` as its quoted `String()`, and `Encode` ends the value
with a newline. -/
def jsonEncode (response : ExchangeRateResponse) : String :=
  "\x7b\"bid\":\"" ++ response.Bid.toStr ++ "\"\x7d\n"

def exchangeRateHandler (env : Env) (db : Store) : ResponseWriter × Store :=
  match findExchangeRate env db with
  | (.error err, db) => ({ status := 500, header := [], body := err }, db)
  | (.ok exchangeRate, db) =>
    ({ status := 200, header := [("Content-Type", "application/json")],
       body := jsonEncode exchangeRate.ToExchangeRateResponse }, db)

end Server

/-! ## `client/client.go` -/

namespace Decimal

/-- Strips the quotes of a quoted text of more than two bytes. -/
def unquoteIfQuoted (bytes : List Char) : List Char :=
  if 2 < bytes.length ∧ bytes.head? = some '"' ∧ bytes.getLast? = some '"' then
    (bytes.drop 1).take (bytes.length - 2)
  else bytes

/-- Model of `(*Decimal).UnmarshalJSON`: `d` is the value before the call. -/
def UnmarshalJSON (d : Decimal) (decimalBytes : String) : Except String Decimal :=
  if decimalBytes = "null" then .ok d
  else
    let str := String.mk (unquoteIfQuoted decimalBytes.toList)
    match NewFromString str with
    | .error err => .error ("error decoding string \x27" ++ str ++ "\x27: " ++ err)
    | .ok decimal => .ok decimal

end Decimal

namespace Client

structure ExchangeRate where
  Bid : Decimal := Decimal.zero
deriving DecidableEq, Repr

/-- Decoding of the members of the top-level object into `ExchangeRate`: a key
that selects `bid` hands the text of its value to `Decimal.UnmarshalJSON`,
whose error ends the decoding. -/
def decodeMembers : List (String × Json.Value) → ExchangeRate → Except String ExchangeRate
  | [], x => .ok x
  | (k, v) :: rest, x =>
    if Json.equalFold k "bid" then
      match Decimal.UnmarshalJSON x.Bid v.text with
      | .error err => .error err
      | .ok d => decodeMembers rest { Bid := d }
    else decodeMembers rest x

/-- Model of `json.Unmarshal(data, &exchangeRate)` for `var exchangeRate ExchangeRate`. -/
def jsonUnmarshal (data : Json.Data) : Except String ExchangeRate :=
  match data with
  | .invalid detail => .error detail
  | .doc v =>
    match v with
    | .object _ ms => decodeMembers ms {}
    | .null => .ok {}
    | other => .error (Json.typeErrorValue other "main.ExchangeRate")

def readExchangeRate (body : Json.Reader) : Except String ExchangeRate :=
  match body with
  | .error err => .error err
  | .ok data =>
    match jsonUnmarshal data with
    | .error err => .error err
    | .ok exchangeRate => .ok exchangeRate

structure Response where
  StatusCode : Nat
  Body : Json.Reader

/-- `findExchangeRateLocalhost`: `call` is what
`findExchangeRateLocalhostWithContext` returned, `ctxErr` whether the 300ms
deadline has elapsed when `ctx.Err()` is tested. -/
def findExchangeRateLocalhost (call : Except String Response) (ctxErr : Bool) :
    Except String Response :=
  if ctxErr then .error "timeout ao buscar cotacao"
  else
    match call with
    | .error _ => .error "erro ao buscar cotacao"
    | .ok res => .ok res

def findExchangeRate (call : Except String Response) (ctxErr : Bool) :
    Except String ExchangeRate :=
  match findExchangeRateLocalhost call ctxErr with
  | .error err => .error err
  | .ok res =>
    if res.StatusCode ≠ 200 then .error "erro ao buscar cotacao"
    else
      match readExchangeRate res.Body with
      | .error err => .error err
      | .ok exchangeRate => .ok exchangeRate

/-- The file `./cotacao.txt`: absent, or its content. -/
abbrev File := Option String

/-- What the file system makes of `os.Create` and of `f.WriteString`: the
error of `os.Create` if any, and for a failed write its error and the number of
characters that reached the file. -/
structure FsEnv where
  createErr : Option String
  writeErr : Option (String × Nat)

/-- The line `fmt.Sprintln("Dólar: ", exchangeRate.Bid)`: the operands
separated by a space and ended by a newline. -/
def outputLine (exchangeRate : ExchangeRate) : String :=
  "Dólar: " ++ " " ++ exchangeRate.Bid.toStr ++ "\n"

/-- `saveExchangeRate` as a step on the file: the returned error, or the
panic of a failed write. -/
def saveExchangeRate (fs : FsEnv) (file : File) (exchangeRate : ExchangeRate) :
    Except String (Option String) × File :=
  match fs.createErr with
  | some err => (.ok (some err), file)
  | none =>
    -- `os.Create` has truncated the file
    match fs.writeErr with
    | some (err, n) => (.error err, some (String.mk ((outputLine exchangeRate).toList.take n)))
    | none => (.ok none, some (outputLine exchangeRate))

end Client

/-! ## Decimal numerals

The notions the claims speak of without the program defining them: the value a
decimal numeral denotes, a text that is not numeric, a payload without bid. -/

/-- The exponent part of a numeral: the marker `e` or `E`, an optional sign
(`some true` is `-`, `some false` is `+`) and the digits. -/
structure ExpPart where
  upper : Bool
  sign : Option Bool
  digits : List Nat

/-- A decimal numeral: an optional sign, the digits before the point, the
digits after the point when there is a point, and an optional exponent part.
Digits are given most significant first. -/
structure Numeral where
  sign : Option Bool
  int : List Nat
  frac : Option (List Nat)
  exp : Option ExpPart

namespace Numeral

/-- The number a run of decimal digits denotes. -/
def digitsValue (ds : List Nat) : Nat := ds.foldl (fun a d => 10 * a + d) 0

def signText : Option Bool → List Char
  | none => []
  | some false => ['+']
  | some true => ['-']

def signValue : Option Bool → Int
  | some true => -1
  | _ => 1

def fracDigits (n : Numeral) : List Nat := n.frac.getD []

/-- The signed exponent. -/
def expValue (n : Numeral) : Int :=
  match n.exp with
  | none => 0
  | some e => signValue e.sign * (digitsValue e.digits : Int)

/-- The text of the fractional part: the point and the digits after it. -/
def fracText : Option (List Nat) → List Char
  | none => []
  | some f => '.' :: f.map Decimal.digitChar

/-- The text of the exponent part: the marker, the sign and the digits. -/
def expText : Option ExpPart → List Char
  | none => []
  | some e =>
    (if e.upper then 'E' else 'e') :: (signText e.sign ++ e.digits.map Decimal.digitChar)

/-- The text of a numeral. -/
def text (n : Numeral) : String :=
  String.mk (signText n.sign ++ n.int.map Decimal.digitChar ++ fracText n.frac ++ expText n.exp)

/-- The value a numeral denotes: the integer part plus the fractional part
over the power of ten of its length, times ten to the exponent, with the sign. -/
def value (n : Numeral) : ℚ :=
  (signValue n.sign : ℚ) *
    ((digitsValue n.int : ℚ) + (digitsValue n.fracDigits : ℚ) / (10 : ℚ) ^ n.fracDigits.length) *
    (10 : ℚ) ^ n.expValue

end Numeral

namespace Decimal

end Decimal

namespace Server

end Server

/-! ## The parts of the text of a decimal -/

namespace Decimal

/-- The digits `toStr` prints before the point, for a negative exponent. -/
def intPart (d : Decimal) : List Char :=
  if (-d.exp).toNat < (natString d.value.natAbs).length then
    (natString d.value.natAbs).take ((natString d.value.natAbs).length - (-d.exp).toNat)
  else ['0']

end Decimal

/-! ## Sequences of requests -/

namespace Server

/-- The store after a sequence of requests, each with what it obtains from outside. -/
def serve : List Env → Store → Store
  | [], db => db
  | env :: rest, db => serve rest (exchangeRateHandler env db).2

end Server

/-! ## Sample inputs -/

/-- A vendor payload with a bid of `5.25`. -/
def samplePayload : Json.Data :=
  .doc (.object "" [("USDBRL", .object ""
    [("code", .string "USD" "USD"), ("codein", .string "BRL" "BRL"),
     ("bid", .string "5.25" "5.25"), ("ask", .string "5.26" "5.26")])])

/-- A vendor payload whose bid is the text `s`. -/
def payloadWithBid (s : String) : Json.Data :=
  .doc (.object "" [("USDBRL", .object "" [("bid", .string s s)])])

/-- A request in which every step succeeds. -/
def sampleEnv : Server.Env :=
  { call := .ok ⟨200, .ok samplePayload⟩, fetchCtxErr := false, uuid := 7,
    dbOpen := none, create := .inserted, saveCtxErr := false }

def emptyStore : Server.Store := ⟨[], []⟩

namespace Decimal

end Decimal

/-! ## The fetchers -/

/-- C6: both fetchers report the timeout error, and no response, whenever the
deadline has elapsed (whatever the call returned); with the deadline not
elapsed they report the fixed fetch error for every transport error, never the
timeout error, and otherwise return the response unchanged. -/
theorem fetchers_outcome :
    (∀ call, Server.findExchangeRateInAwesomeapi call true = .error "timeout ao buscar cotacao") ∧
    (∀ e, Server.findExchangeRateInAwesomeapi (.error e) false = .error "erro ao buscar cotacao") ∧
    (∀ res, Server.findExchangeRateInAwesomeapi (.ok res) false = .ok res) ∧
    (∀ call, Server.findExchangeRateInAwesomeapi call false ≠ .error "timeout ao buscar cotacao") ∧
    (∀ call, Client.findExchangeRateLocalhost call true = .error "timeout ao buscar cotacao") ∧
    (∀ e, Client.findExchangeRateLocalhost (.error e) false = .error "erro ao buscar cotacao") ∧
    (∀ res, Client.findExchangeRateLocalhost (.ok res) false = .ok res) ∧
    (∀ call, Client.findExchangeRateLocalhost call false ≠ .error "timeout ao buscar cotacao") := by
  refine ⟨fun _ => rfl, fun _ => rfl, fun _ => rfl, ?_, fun _ => rfl, fun _ => rfl, fun _ => rfl, ?_⟩
  · intro call h
    cases call with
    | error e =>
      simp only [Server.findExchangeRateInAwesomeapi] at h
      exact absurd (Except.error.inj h) (by decide)
    | ok res => simp [Server.findExchangeRateInAwesomeapi] at h
  · intro call h
    cases call with
    | error e =>
      simp only [Client.findExchangeRateLocalhost] at h
      exact absurd (Except.error.inj h) (by decide)
    | ok res => simp [Client.findExchangeRateLocalhost] at h

/-! ## The persister -/

/-- C4: with the store open and the deadline not elapsed, an insert that
failed makes `saveExchangeRate` return no error at all. -/
theorem saveExchangeRate_failed_insert (err : String) (db : Server.Store)
    (exchangeRate : Server.ExchangeRate) :
    Server.saveExchangeRate none (.failed err) false db exchangeRate =
      (none, { rows := db.rows, inserts := db.inserts ++ [exchangeRate] }) := rfl

/-- C5: two requests that fail in the same stage, the conversion of the bid,
are answered with different bodies, each quoting the rejected bid. -/
theorem handler_body_leaks_detail :
    (Server.exchangeRateHandler { sampleEnv with call := .ok ⟨200, .ok (payloadWithBid "abc")⟩ }
        emptyStore).1 = ⟨500, [], "can\x27t convert abc to decimal"⟩ ∧
    (Server.exchangeRateHandler { sampleEnv with call := .ok ⟨200, .ok (payloadWithBid "xyz")⟩ }
        emptyStore).1 = ⟨500, [], "can\x27t convert xyz to decimal"⟩ ∧
    (Server.exchangeRateHandler { sampleEnv with call := .ok ⟨200, .ok (.invalid "unexpected end of JSON input")⟩ }
        emptyStore).1 = ⟨500, [], "unexpected end of JSON input"⟩ := by
  refine ⟨by decide, by decide, by decide⟩

/-! ## The request handler -/

/-- The answers of the handler along `findExchangeRate`.  An error of the
fetch or of the decode is answered 500 with the error text; an error returned
by `saveExchangeRate` is answered 500 with its text (the timeout text or the
error of opening the store); the answer is 200, with the JSON content type
and the encoded bid as body, exactly when fetch and decode succeed and
`saveExchangeRate` returns no error. -/
theorem handler_outcomes (env : Server.Env) (db : Server.Store) :
    (∀ e, Server.findExchangeRateInAwesomeapi env.call env.fetchCtxErr = .error e →
      Server.exchangeRateHandler env db = (⟨500, [], e⟩, db)) ∧
    (∀ res e, Server.findExchangeRateInAwesomeapi env.call env.fetchCtxErr = .ok res →
      Server.readExchangeRate res.Body env.uuid = .error e →
      Server.exchangeRateHandler env db = (⟨500, [], e⟩, db)) ∧
    (∀ res r e db', Server.findExchangeRateInAwesomeapi env.call env.fetchCtxErr = .ok res →
      Server.readExchangeRate res.Body env.uuid = .ok r →
      Server.saveExchangeRate env.dbOpen env.create env.saveCtxErr db r = (some e, db') →
      Server.exchangeRateHandler env db = (⟨500, [], e⟩, db') ∧
        (e = "timeout ao salvar cotacao" ∨ env.dbOpen = some e)) ∧
    (∀ res r db', Server.findExchangeRateInAwesomeapi env.call env.fetchCtxErr = .ok res →
      Server.readExchangeRate res.Body env.uuid = .ok r →
      Server.saveExchangeRate env.dbOpen env.create env.saveCtxErr db r = (none, db') →
      Server.exchangeRateHandler env db =
        (⟨200, [("Content-Type", "application/json")],
          "\x7b\"bid\":\"" ++ r.Bid.toStr ++ "\"\x7d\n"⟩, db')) ∧
    ((Server.exchangeRateHandler env db).1.status = 200 ↔
      ∃ res r db', Server.findExchangeRateInAwesomeapi env.call env.fetchCtxErr = .ok res ∧
        Server.readExchangeRate res.Body env.uuid = .ok r ∧
        Server.saveExchangeRate env.dbOpen env.create env.saveCtxErr db r = (none, db')) := by
  refine ⟨?_, ?_, ?_, ?_, ?_⟩
  · intro e h
    simp [Server.exchangeRateHandler, Server.findExchangeRate, h]
  · intro res e h1 h2
    simp [Server.exchangeRateHandler, Server.findExchangeRate, h1, h2]
  · intro res r e db' h1 h2 h3
    refine ⟨by simp [Server.exchangeRateHandler, Server.findExchangeRate, h1, h2, h3], ?_⟩
    unfold Server.saveExchangeRate at h3
    cases hd : env.dbOpen with
    | some e' =>
      rw [hd] at h3
      simp at h3
      exact Or.inr (by rw [h3.1])
    | none =>
      rw [hd] at h3
      cases hc : env.saveCtxErr <;> rw [hc] at h3 <;> simp at h3
      exact Or.inl h3.1.symm
  · intro res r db' h1 h2 h3
    simp [Server.exchangeRateHandler, Server.findExchangeRate, h1, h2, h3, Server.jsonEncode,
      Server.ExchangeRate.ToExchangeRateResponse]
  · cases h1 : Server.findExchangeRateInAwesomeapi env.call env.fetchCtxErr with
    | error e => simp [Server.exchangeRateHandler, Server.findExchangeRate, h1]
    | ok res =>
      cases h2 : Server.readExchangeRate res.Body env.uuid with
      | error e => simp [Server.exchangeRateHandler, Server.findExchangeRate, h1, h2]
      | ok r =>
        rcases h3 : Server.saveExchangeRate env.dbOpen env.create env.saveCtxErr db r with ⟨o, db'⟩
        cases o with
        | some e => simp [Server.exchangeRateHandler, Server.findExchangeRate, h1, h2, h3]
        | none => simp [Server.exchangeRateHandler, Server.findExchangeRate, h1, h2, h3]

/-- A request whose save times out is answered 500 with the timeout text. -/
theorem handler_outcomes_witness :
    Server.exchangeRateHandler { sampleEnv with saveCtxErr := true } emptyStore =
        (⟨500, [], "timeout ao salvar cotacao"⟩, ⟨[⟨7, ⟨525, -2⟩⟩], [⟨7, ⟨525, -2⟩⟩]⟩) ∧
      ("timeout ao salvar cotacao" = "timeout ao salvar cotacao" ∨
        (none : Option String) = some "timeout ao salvar cotacao") :=
  (handler_outcomes { sampleEnv with saveCtxErr := true } emptyStore).2.2.1
    ⟨200, .ok samplePayload⟩ ⟨7, ⟨525, -2⟩⟩ "timeout ao salvar cotacao"
    ⟨[⟨7, ⟨525, -2⟩⟩], [⟨7, ⟨525, -2⟩⟩]⟩ rfl (by decide) (by decide)

/-- C3: a request whose fetch and decode succeed and whose insert the store
rejects before the deadline is answered 200 with the fetched bid, although no
row has been stored. -/
theorem handler_serves_unsaved_rate :
    Server.exchangeRateHandler
        { sampleEnv with create := .failed "no such table: exchange_rates" } emptyStore =
      (⟨200, [("Content-Type", "application/json")], "\x7b\"bid\":\"5.25\"\x7d\n"⟩,
        ⟨[], [⟨7, ⟨525, -2⟩⟩]⟩) := by
  decide

/-- C10: the upstream status code plays no part in `findExchangeRate` nor in
the handler; whatever the status, a response in time whose body decodes and
whose record is saved yields that record and the answer 200. -/
theorem findExchangeRate_ignores_status (env : Server.Env) (db : Server.Store) (s1 s2 : Nat)
    (body : Json.Reader) :
    Server.findExchangeRate { env with call := .ok ⟨s1, body⟩ } db =
      Server.findExchangeRate { env with call := .ok ⟨s2, body⟩ } db ∧
    Server.exchangeRateHandler { env with call := .ok ⟨s1, body⟩ } db =
      Server.exchangeRateHandler { env with call := .ok ⟨s2, body⟩ } db ∧
    (∀ r db', env.fetchCtxErr = false → Server.readExchangeRate body env.uuid = .ok r →
      Server.saveExchangeRate env.dbOpen env.create env.saveCtxErr db r = (none, db') →
      Server.findExchangeRate { env with call := .ok ⟨s1, body⟩ } db = (.ok r, db') ∧
      (Server.exchangeRateHandler { env with call := .ok ⟨s1, body⟩ } db).1.status = 200) := by
  refine ⟨?_, ?_, ?_⟩
  · cases hc : env.fetchCtxErr <;>
      simp [Server.findExchangeRate, Server.findExchangeRateInAwesomeapi, hc]
  · cases hc : env.fetchCtxErr <;>
      simp [Server.exchangeRateHandler, Server.findExchangeRate,
        Server.findExchangeRateInAwesomeapi, hc]
  · intro r db' hc h2 h3
    simp [Server.exchangeRateHandler, Server.findExchangeRate,
      Server.findExchangeRateInAwesomeapi, hc, h2, h3]

/-- Witness of C10: an upstream answer with status 404 and a valid payload is served as 200. -/
theorem findExchangeRate_ignores_status_witness :
    Server.findExchangeRate { sampleEnv with call := .ok ⟨404, .ok samplePayload⟩ } emptyStore =
        (.ok ⟨7, ⟨525, -2⟩⟩, ⟨[⟨7, ⟨525, -2⟩⟩], [⟨7, ⟨525, -2⟩⟩]⟩) ∧
      (Server.exchangeRateHandler { sampleEnv with call := .ok ⟨404, .ok samplePayload⟩ }
        emptyStore).1.status = 200 :=
  (findExchangeRate_ignores_status sampleEnv emptyStore 404 200 (.ok samplePayload)).2.2
    ⟨7, ⟨525, -2⟩⟩ ⟨[⟨7, ⟨525, -2⟩⟩], [⟨7, ⟨525, -2⟩⟩]⟩ rfl (by decide) (by decide)

/-! ## The store across requests -/

/-- The store after one request whose fetch and decode succeed: nothing is
touched when the store does not open, otherwise the one `Create` is issued. -/
theorem handler_store_of_decoded (env : Server.Env) (db : Server.Store) (res : Server.Response)
    (r : Server.ExchangeRate)
    (h1 : Server.findExchangeRateInAwesomeapi env.call env.fetchCtxErr = .ok res)
    (h2 : Server.readExchangeRate res.Body env.uuid = .ok r) :
    (Server.exchangeRateHandler env db).2 =
      match env.dbOpen with
      | some _ => db
      | none => db.Create r env.create := by
  cases hd : env.dbOpen with
  | some e =>
    simp [Server.exchangeRateHandler, Server.findExchangeRate, h1, h2, Server.saveExchangeRate, hd]
  | none =>
    cases hc : env.saveCtxErr <;>
      simp [Server.exchangeRateHandler, Server.findExchangeRate, h1, h2,
        Server.saveExchangeRate, hd, hc]

/-- The identifier of a decoded record is the generated one. -/
theorem readExchangeRate_uuid (body : Json.Reader) (uuid : Server.UUID) (r : Server.ExchangeRate)
    (h : Server.readExchangeRate body uuid = .ok r) : r.UUID = uuid := by
  unfold Server.readExchangeRate at h
  cases body with
  | error e => simp at h
  | ok data =>
    simp only at h
    cases hu : Server.jsonUnmarshal data with
    | error e => rw [hu] at h; simp at h
    | ok x =>
      rw [hu] at h
      simp only [Server.ExchangeRateAwesomeapi.ToExchangeRate] at h
      cases hn : Decimal.NewFromString x.USDBRL.Bid with
      | error e => rw [hn] at h; simp at h
      | ok d =>
        rw [hn] at h
        simp only [Except.ok.injEq] at h
        rw [← h]

/-- C9, as stated, fails: a request whose fetch and decode succeed issues no
insert when the store does not open. -/
theorem no_insert_when_store_closed :
    Server.findExchangeRateInAwesomeapi sampleEnv.call sampleEnv.fetchCtxErr =
        .ok ⟨200, .ok samplePayload⟩ ∧
      Server.readExchangeRate (.ok samplePayload) sampleEnv.uuid = .ok ⟨7, ⟨525, -2⟩⟩ ∧
      (Server.exchangeRateHandler { sampleEnv with dbOpen := some "unable to open database file" }
        emptyStore).2.inserts = [] :=
  ⟨rfl, by decide, by decide⟩

/-- C9, amended: a request whose fetch and decode succeed and for which the
store opens issues exactly one insert, of the decoded record with the
generated identifier, whatever the store already holds; when the store
carries the insert out the record is one more row.  A request whose fetch or
decode fails leaves the store as it was.  Hence `n` requests whose inserts are
carried out leave `n` more rows. -/
theorem one_insert_per_cycle (env : Server.Env) (db : Server.Store) :
    (∀ res r, Server.findExchangeRateInAwesomeapi env.call env.fetchCtxErr = .ok res →
      Server.readExchangeRate res.Body env.uuid = .ok r → env.dbOpen = none →
      r.UUID = env.uuid ∧
      (Server.exchangeRateHandler env db).2.inserts = db.inserts ++ [r] ∧
      (env.create = .inserted → (Server.exchangeRateHandler env db).2.rows = db.rows ++ [r])) ∧
    (∀ e, Server.findExchangeRateInAwesomeapi env.call env.fetchCtxErr = .error e →
      (Server.exchangeRateHandler env db).2 = db) ∧
    (∀ res e, Server.findExchangeRateInAwesomeapi env.call env.fetchCtxErr = .ok res →
      Server.readExchangeRate res.Body env.uuid = .error e →
      (Server.exchangeRateHandler env db).2 = db) ∧
    (∀ envs : List Server.Env,
      (∀ env' ∈ envs, (∃ res r,
          Server.findExchangeRateInAwesomeapi env'.call env'.fetchCtxErr = .ok res ∧
          Server.readExchangeRate res.Body env'.uuid = .ok r) ∧
        env'.dbOpen = none ∧ env'.create = .inserted) →
      (Server.serve envs db).rows.length = db.rows.length + envs.length ∧
      (Server.serve envs db).inserts.length = db.inserts.length + envs.length) := by
  refine ⟨?_, ?_, ?_, ?_⟩
  · intro res r h1 h2 hd
    have hs := handler_store_of_decoded env db res r h1 h2
    rw [hd] at hs
    simp only at hs
    refine ⟨readExchangeRate_uuid _ _ _ h2, ?_, ?_⟩
    · rw [hs]; cases env.create <;> rfl
    · intro hc; rw [hs, hc]; rfl
  · intro e h
    simp [Server.exchangeRateHandler, Server.findExchangeRate, h]
  · intro res e h1 h2
    simp [Server.exchangeRateHandler, Server.findExchangeRate, h1, h2]
  · intro envs
    induction envs generalizing db with
    | nil => intro _; simp [Server.serve]
    | cons env' rest ih =>
      intro h
      obtain ⟨⟨res, r, h1, h2⟩, hd, hc⟩ := h env' (List.mem_cons_self _ _)
      have hs := handler_store_of_decoded env' db res r h1 h2
      rw [hd] at hs
      simp only at hs
      have ih' := ih (Server.exchangeRateHandler env' db).2
        (fun e he => h e (List.mem_cons_of_mem _ he))
      simp only [Server.serve]
      rw [ih'.1, ih'.2, hs, hc]
      simp [Server.Store.Create]
      omega

/-- Witness of C9 (amended): three requests with the same payload on an empty
store leave three rows. -/
theorem one_insert_per_cycle_witness :
    (Server.serve [sampleEnv, { sampleEnv with uuid := 8 }, { sampleEnv with uuid := 9 }]
        emptyStore).rows.length = emptyStore.rows.length + 3 ∧
      (Server.serve [sampleEnv, { sampleEnv with uuid := 8 }, { sampleEnv with uuid := 9 }]
        emptyStore).inserts.length = emptyStore.inserts.length + 3 :=
  (one_insert_per_cycle sampleEnv emptyStore).2.2.2
    [sampleEnv, { sampleEnv with uuid := 8 }, { sampleEnv with uuid := 9 }]
    (fun env' h => by
      simp only [List.mem_cons, List.mem_singleton, List.not_mem_nil, or_false] at h
      rcases h with h | h | h <;> subst h
      · exact ⟨⟨⟨200, .ok samplePayload⟩, ⟨7, ⟨525, -2⟩⟩, rfl, by decide⟩, rfl, rfl⟩
      · exact ⟨⟨⟨200, .ok samplePayload⟩, ⟨8, ⟨525, -2⟩⟩, rfl, by decide⟩, rfl, rfl⟩
      · exact ⟨⟨⟨200, .ok samplePayload⟩, ⟨9, ⟨525, -2⟩⟩, rfl, by decide⟩, rfl, rfl⟩)

/-! ## The client pipeline -/

namespace Decimal

end Decimal

namespace Decimal

end Decimal

/-! ## Decoding the vendor payload -/

namespace Server

end Server

/-! ## The bid of a decoded payload -/

namespace Decimal

end Decimal

namespace Server

end Server

namespace Decimal

end Decimal

/-! ## Zeros at the ends -/

namespace Decimal

end Decimal

/-! ## Reading the text of a decimal back -/

namespace Decimal

end Decimal

namespace Decimal

end Decimal

namespace Decimal

end Decimal

namespace Decimal

end Decimal

namespace Decimal

end Decimal

/-! ## From the payload to the file -/

namespace Decimal

end Decimal

